import Mathlib

/-!
Shallow embedding of the core verifier pieces of the evm-light-client
repository, together with theorems settling the specification claims about
them.

Embedded sources:
- `consensus/src/fork.rs`: fork table (`ForkParameters`, `ForkSpec`,
  `compute_fork`, `compute_fork_version`, `compute_fork_spec`, `is_fork`).
- `consensus/src/errors.rs`: the error variants produced by the embedded code.
- `light_client_verifier/src/context.rs`: `Fraction`.
- `lodestar_rpc/src/types.rs`: the wire-level update types and their
  conversions into the consensus `LightClientUpdate`.

Machine integers (`u64`, `u32`) are embedded as `Nat`: the embedded code only
compares them and copies them, so no overflow can occur and no reduction
modulo a word size is needed. Fixed-size byte arrays are embedded as lists of
their bytes.
-/

/-- Beacon chain epoch (Rust `Epoch = U64`). -/
abbrev Epoch := Nat

/-- Beacon chain slot (Rust `Slot = U64`). -/
abbrev Slot := Nat

/-- 4-byte fork version (Rust `Version([u8; 4])`), as the list of its bytes. -/
abbrev Version := List Nat

/-- 32-byte hash (Rust `H256`), as the list of its bytes. -/
abbrev H256 := List Nat

/-- The all-zero `H256`, the Rust `Default::default()` value. -/
def zeroH256 : H256 := List.replicate 32 0

/-- `ForkSpec` from consensus/src/fork.rs: the generalized indices in force at
one fork. The Rust fields are `u32`. -/
structure ForkSpec where
  finalized_root_gindex : Nat
  current_sync_committee_gindex : Nat
  next_sync_committee_gindex : Nat
  execution_payload_gindex : Nat
  execution_payload_state_root_gindex : Nat
  execution_payload_block_number_gindex : Nat
deriving DecidableEq

/-- `GENESIS_SPEC` from consensus/src/fork.rs. -/
def GENESIS_SPEC : ForkSpec :=
  { finalized_root_gindex := 105
    current_sync_committee_gindex := 0
    next_sync_committee_gindex := 0
    execution_payload_gindex := 0
    execution_payload_state_root_gindex := 0
    execution_payload_block_number_gindex := 0 }

/-- `ForkParameter` from consensus/src/fork.rs. -/
structure ForkParameter where
  version : Version
  epoch : Epoch
  spec : ForkSpec
deriving DecidableEq

/-- `ForkParameters` from consensus/src/fork.rs: the genesis version plus the
fork table in order of ascending epoch. -/
structure ForkParameters where
  genesis_version : Version
  forks : List ForkParameter
deriving DecidableEq

/-- `Error` from consensus/src/errors.rs. Only the variants the embedded
functions can produce are included; the omitted variants wrap types of
external libraries (BLS, SSZ, hex) that no embedded function mentions. -/
inductive Error where
  | invalidForkParamersOrder (params : ForkParameters)
  | notSupportedLightClient
deriving DecidableEq

/-- The `self.forks.windows(2).all(|f| f[0].epoch <= f[1].epoch)` test inside
`ForkParameters::validate`: every adjacent pair of the list is ordered by
epoch (vacuously true for lists shorter than two). -/
def epochsOrdered : List ForkParameter → Bool
  | [] => true
  | [_] => true
  | a :: b :: rest => (decide (a.epoch ≤ b.epoch)) && epochsOrdered (b :: rest)

/-- `ForkParameters::validate` from consensus/src/fork.rs. -/
def ForkParameters.validate (self : ForkParameters) : Except Error Unit :=
  if self.forks.isEmpty then
    Except.error Error.notSupportedLightClient
  else if epochsOrdered self.forks then
    Except.ok ()
  else
    Except.error (Error.invalidForkParamersOrder self)

/-- `ForkParameters::new` from consensus/src/fork.rs: build the value, run
`validate`, and return the value on success or propagate the error. -/
def ForkParameters.new (genesis_version : Version) (forks : List ForkParameter) :
    Except Error ForkParameters :=
  let built : ForkParameters := { genesis_version, forks }
  match built.validate with
  | Except.ok _ => Except.ok built
  | Except.error e => Except.error e

/-- `ForkParameters::compute_fork` from consensus/src/fork.rs:
`self.forks.iter().enumerate().rev().find(|(_, f)| epoch >= f.epoch)`. -/
def ForkParameters.compute_fork (self : ForkParameters) (epoch : Epoch) :
    Option (Nat × ForkParameter) :=
  self.forks.enum.reverse.find? fun f => decide (epoch ≥ f.2.epoch)

/-- `ForkParameters::compute_fork_version` from consensus/src/fork.rs. -/
def ForkParameters.compute_fork_version (self : ForkParameters) (epoch : Epoch) : Version :=
  ((self.compute_fork epoch).map fun f => f.2.version).getD self.genesis_version

/-- `ForkParameters::compute_fork_spec` from consensus/src/fork.rs. -/
def ForkParameters.compute_fork_spec (self : ForkParameters) (epoch : Epoch) : ForkSpec :=
  ((self.compute_fork epoch).map fun f => f.2.spec).getD GENESIS_SPEC

/-- `ForkParameters::is_fork` from consensus/src/fork.rs. -/
def ForkParameters.is_fork (self : ForkParameters) (epoch : Epoch) (fork_index : Nat) : Bool :=
  match self.compute_fork epoch with
  | some (current, _) => decide (current ≥ fork_index)
  | none => false

/-- Specification-side reading of the fork lookup: the last fork of the table
whose activation epoch is at most `e`. -/
def lastActiveFork (forks : List ForkParameter) (e : Epoch) : Option ForkParameter :=
  (forks.filter fun f => decide (f.epoch ≤ e)).getLast?

/-- Specification-side reading of the indexed fork lookup: the last fork of
the table whose activation epoch is at most `e`, paired with its position in
the ordered table. -/
def lastActiveForkEntry (forks : List ForkParameter) (e : Epoch) :
    Option (Nat × ForkParameter) :=
  (forks.enum.filter fun f => decide (f.2.epoch ≤ e)).getLast?

/-- Specification-side reading of the monotonicity requirement on the fork
table: each epoch is at most the next one. -/
def EpochsSorted (fs : List ForkParameter) : Prop :=
  ∀ i, (h : i + 1 < fs.length) →
    (fs.get ⟨i, Nat.lt_of_succ_lt h⟩).epoch ≤ (fs.get ⟨i + 1, h⟩).epoch

/-- `Fraction` from light_client_verifier/src/context.rs. The Rust fields are
`u64`; only comparisons occur. -/
structure Fraction where
  numerator : Nat
  denominator : Nat
deriving DecidableEq

/-- The error type of light_client_verifier. Its errors.rs is not among the
sources; the `InvalidFraction` variant and its payload are visible at the
construction site in context.rs, which is all the embedded code produces. -/
inductive VerifierError where
  | invalidFraction (f : Fraction)
deriving DecidableEq

/-- `Fraction::new` from light_client_verifier/src/context.rs. -/
def Fraction.new (numerator denominator : Nat) : Except VerifierError Fraction :=
  if denominator = 0 ∨ numerator > denominator then
    Except.error (VerifierError.invalidFraction { numerator, denominator })
  else
    Except.ok { numerator, denominator }

/-- Modelled from the spec: `PublicKey` is a compressed 48-byte BLS public
key; the consensus bls.rs file is not among the sources. The embedded
conversions only copy public keys and compare them with the default value. -/
abbrev PublicKey := List Nat

/-- The all-zero default public key. -/
def defaultPublicKey : PublicKey := List.replicate 48 0

/-- Modelled from the spec: a 96-byte BLS signature, as its list of bytes. -/
abbrev Signature := List Nat

/-- The all-zero default signature. -/
def defaultSignature : Signature := List.replicate 96 0

/-- Modelled from the spec: `BeaconBlockHeader { slot, proposer_index,
parent_root, state_root, body_root }`; the consensus beacon.rs file is not
among the sources. -/
structure BeaconBlockHeader where
  slot : Slot
  proposer_index : Nat
  parent_root : H256
  state_root : H256
  body_root : H256
deriving DecidableEq

/-- Modelled from the spec: the deneb `ExecutionPayloadHeader` is not among
the sources; the spec names its `state_root` and `block_number` fields, which
suffice for the embedded conversions (headers are only copied whole). -/
structure ExecutionPayloadHeader where
  state_root : H256
  block_number : Nat
deriving DecidableEq

/-- Modelled from the spec: `LightClientHeader { beacon, execution,
execution_branch }`; the fork/deneb.rs file is not among the sources. -/
structure LightClientHeader where
  beacon : BeaconBlockHeader
  execution : ExecutionPayloadHeader
  execution_branch : List H256
deriving DecidableEq

/-- The all-default beacon block header. -/
def emptyBeaconBlockHeader : BeaconBlockHeader :=
  { slot := 0, proposer_index := 0, parent_root := zeroH256
    state_root := zeroH256, body_root := zeroH256 }

/-- The all-default (empty) light client header. -/
def emptyLightClientHeader : LightClientHeader :=
  { beacon := emptyBeaconBlockHeader
    execution := { state_root := zeroH256, block_number := 0 }
    execution_branch := [] }

/-- Modelled from the spec: `SyncCommittee<N> { pubkeys: [PublicKey; N],
aggregate_pubkey }`; the consensus sync_protocol.rs file is not among the
sources. The Rust type fixes `pubkeys` to length `N` by a const generic. -/
structure SyncCommittee where
  pubkeys : List PublicKey
  aggregate_pubkey : PublicKey
deriving DecidableEq

/-- The `Default::default()` value of `SyncCommittee<N>`: `N` all-zero public
keys and the all-zero aggregate key. -/
def SyncCommittee.defaultFor (N : Nat) : SyncCommittee :=
  { pubkeys := List.replicate N defaultPublicKey
    aggregate_pubkey := defaultPublicKey }

/-- Modelled from the spec: `SyncAggregate<N> { sync_committee_bits,
sync_committee_signature }`. -/
structure SyncAggregate where
  sync_committee_bits : List Bool
  sync_committee_signature : Signature
deriving DecidableEq

/-- The consensus `LightClientUpdate` the RPC types convert into. The
fork/deneb.rs file defining it is not among the sources, but its field list is
fully visible in the two `From` impls of lodestar_rpc/src/types.rs:
`next_sync_committee` is an optional committee-and-branch pair, while the
finality fields are plain (always-present) fields. -/
structure LightClientUpdate where
  attested_header : LightClientHeader
  next_sync_committee : Option (SyncCommittee × List H256)
  finalized_header : LightClientHeader
  finality_branch : List H256
  sync_aggregate : SyncAggregate
  signature_slot : Slot
deriving DecidableEq

/-- `LightClientUpdateData` from lodestar_rpc/src/types.rs (the wire form of
an update, all fields always present). -/
structure LightClientUpdateData where
  attested_header : LightClientHeader
  next_sync_committee : SyncCommittee
  next_sync_committee_branch : List H256
  finalized_header : LightClientHeader
  finality_branch : List H256
  sync_aggregate : SyncAggregate
  signature_slot : Slot
deriving DecidableEq

/-- `LightClientFinalityUpdateData` from lodestar_rpc/src/types.rs. -/
structure LightClientFinalityUpdateData where
  attested_header : LightClientHeader
  finalized_header : LightClientHeader
  finality_branch : List H256
  sync_aggregate : SyncAggregate
  signature_slot : Slot
deriving DecidableEq

/-- The `From<LightClientUpdateData> for LightClientUpdate` impl of
lodestar_rpc/src/types.rs: an all-default `next_sync_committee` becomes
`none`, otherwise the committee is paired with its branch; every other field
is carried over unchanged. `N` is the const-generic committee size. -/
def LightClientUpdateData.toLightClientUpdate (N : Nat)
    (value : LightClientUpdateData) : LightClientUpdate :=
  let next_sync_committee :=
    if value.next_sync_committee = SyncCommittee.defaultFor N then
      none
    else
      some (value.next_sync_committee, value.next_sync_committee_branch)
  { attested_header := value.attested_header
    next_sync_committee := next_sync_committee
    finalized_header := value.finalized_header
    finality_branch := value.finality_branch
    sync_aggregate := value.sync_aggregate
    signature_slot := value.signature_slot }

/-- The `From<LightClientFinalityUpdateData> for LightClientUpdate` impl of
lodestar_rpc/src/types.rs. -/
def LightClientFinalityUpdateData.toLightClientUpdate
    (value : LightClientFinalityUpdateData) : LightClientUpdate :=
  { attested_header := value.attested_header
    next_sync_committee := none
    finalized_header := value.finalized_header
    finality_branch := value.finality_branch
    sync_aggregate := value.sync_aggregate
    signature_slot := value.signature_slot }

/-- A branch is a zero branch when every element is the zero hash. -/
def isZeroBranch (branch : List H256) : Bool :=
  branch.all fun h => decide (h = zeroH256)

/-- An arbitrary concrete fork spec used by the concrete scenarios below. -/
def sampleSpec : ForkSpec :=
  { finalized_root_gindex := 105
    current_sync_committee_gindex := 54
    next_sync_committee_gindex := 55
    execution_payload_gindex := 25
    execution_payload_state_root_gindex := 18
    execution_payload_block_number_gindex := 22 }

/-- A concrete two-fork table: forks at epochs 2 and 5. -/
def sampleForkA : ForkParameter := { version := [1, 0, 0, 1], epoch := 2, spec := sampleSpec }

/-- Second fork of the concrete table. -/
def sampleForkB : ForkParameter := { version := [2, 0, 0, 1], epoch := 5, spec := sampleSpec }

/-- A concrete valid `ForkParameters` value for witnesses. -/
def sampleParams : ForkParameters :=
  { genesis_version := [0, 0, 0, 1], forks := [sampleForkA, sampleForkB] }

/-- A 32-byte hash that is not the zero hash. -/
def oneH256 : H256 := 1 :: List.replicate 31 0

/-- A concrete sync aggregate for the wire-level scenarios. -/
def sampleAggregate : SyncAggregate :=
  { sync_committee_bits := [true], sync_committee_signature := defaultSignature }

/-- Concrete wire update carrying the default (absent) committee sentinel
together with an empty finalized header and a non-zero finality branch. -/
def c4data : LightClientUpdateData :=
  { attested_header := emptyLightClientHeader
    next_sync_committee := SyncCommittee.defaultFor 1
    next_sync_committee_branch := []
    finalized_header := emptyLightClientHeader
    finality_branch := [oneH256]
    sync_aggregate := sampleAggregate
    signature_slot := 1 }

/-- Concrete wire update with a non-default committee, for the C3 witness. -/
def c3data : LightClientUpdateData :=
  { attested_header := emptyLightClientHeader
    next_sync_committee := { pubkeys := [1 :: List.replicate 47 0], aggregate_pubkey := defaultPublicKey }
    next_sync_committee_branch := [oneH256]
    finalized_header := emptyLightClientHeader
    finality_branch := []
    sync_aggregate := sampleAggregate
    signature_slot := 1 }

/-- Concrete wire update with the default committee sentinel and an empty
committee branch. -/
def c10a : LightClientUpdateData :=
  { attested_header := emptyLightClientHeader
    next_sync_committee := SyncCommittee.defaultFor 1
    next_sync_committee_branch := []
    finalized_header := emptyLightClientHeader
    finality_branch := []
    sync_aggregate := sampleAggregate
    signature_slot := 7 }

/-- Same as `c10a` except for a different (non-empty) committee branch. -/
def c10b : LightClientUpdateData :=
  { attested_header := emptyLightClientHeader
    next_sync_committee := SyncCommittee.defaultFor 1
    next_sync_committee_branch := [oneH256]
    finalized_header := emptyLightClientHeader
    finality_branch := []
    sync_aggregate := sampleAggregate
    signature_slot := 7 }

/-- Searching the reversed list for the first hit finds the last element of
the original list satisfying the predicate. -/
theorem reverse_find?_eq_filter_getLast? {α : Type} (p : α → Bool) (l : List α) :
    l.reverse.find? p = (l.filter p).getLast? := by
  induction l using List.reverseRecOn with
  | nil => rfl
  | append_singleton l a ih =>
    rw [List.reverse_append, List.filter_append, List.reverse_singleton,
      List.singleton_append]
    cases h : p a
    · have h1 : List.filter p [a] = [] := by simp [h]
      have h2 : (a :: l.reverse).find? p = l.reverse.find? p := by
        simp [List.find?, h]
      rw [h2, ih, h1, List.append_nil]
    · have h1 : List.filter p [a] = [a] := by simp [h]
      have h2 : (a :: l.reverse).find? p = some a := by
        simp [List.find?, h]
      rw [h2, h1, List.getLast?_concat]

/-- The reverse enumerated search of `compute_fork` computes exactly the last
active enumerated fork. -/
theorem compute_fork_eq_lastActiveForkEntry (fp : ForkParameters) (e : Epoch) :
    fp.compute_fork e = lastActiveForkEntry fp.forks e := by
  unfold ForkParameters.compute_fork lastActiveForkEntry
  rw [reverse_find?_eq_filter_getLast?]

/-- Dropping the index from `compute_fork` computes exactly the last active
fork. -/
theorem compute_fork_map_snd (fp : ForkParameters) (e : Epoch) :
    (fp.compute_fork e).map Prod.snd = lastActiveFork fp.forks e := by
  rw [compute_fork_eq_lastActiveForkEntry]
  unfold lastActiveForkEntry lastActiveFork
  have hfil : (fp.forks.enum.filter fun f => decide (f.2.epoch ≤ e))
      = fp.forks.enum.filter (((fun f => decide (f.epoch ≤ e)) : ForkParameter → Bool) ∘ Prod.snd) := rfl
  rw [hfil, ← List.getLast?_map, ← List.filter_map, List.enum_map_snd]

/-- If every fork activates strictly after `e`, the fork lookup is empty. -/
theorem compute_fork_eq_none_of_all_later (fp : ForkParameters) (e : Epoch)
    (hall : ∀ f ∈ fp.forks, e < f.epoch) : fp.compute_fork e = none := by
  rw [compute_fork_eq_lastActiveForkEntry]
  unfold lastActiveForkEntry
  rw [List.getLast?_eq_none_iff, List.filter_eq_nil_iff]
  intro x hx
  have hm : x.2 ∈ fp.forks := by
    have h2 := List.mem_map_of_mem Prod.snd hx
    rwa [List.enum_map_snd] at h2
  simp only [decide_eq_true_eq]
  exact Nat.not_le.mpr (hall x.2 hm)

/-- The Boolean adjacency check agrees with `List.Chain'`. -/
theorem epochsOrdered_iff_chain : ∀ fs : List ForkParameter,
    epochsOrdered fs = true ↔ List.Chain' (fun a b => a.epoch ≤ b.epoch) fs
  | [] => by simp [epochsOrdered]
  | [_] => by simp [epochsOrdered]
  | a :: b :: rest => by
    simp only [epochsOrdered, Bool.and_eq_true, decide_eq_true_eq, List.chain'_cons]
    exact and_congr Iff.rfl (epochsOrdered_iff_chain (b :: rest))

/-- The index-based sortedness reading agrees with `List.Chain'`. -/
theorem epochsSorted_iff_chain (fs : List ForkParameter) :
    EpochsSorted fs ↔ List.Chain' (fun a b => a.epoch ≤ b.epoch) fs := by
  rw [List.chain'_iff_get]
  constructor
  · intro hs i h
    exact hs i (by omega)
  · intro hc i h
    exact hc i (by omega)

/-- The Boolean adjacency check agrees with the index-based reading. -/
theorem epochsOrdered_iff_sorted (fs : List ForkParameter) :
    epochsOrdered fs = true ↔ EpochsSorted fs :=
  (epochsOrdered_iff_chain fs).trans (epochsSorted_iff_chain fs).symm

/-- Case analysis of `ForkParameters.new` as a single conditional. -/
theorem forkParameters_new_cases (v : Version) (fs : List ForkParameter) :
    ForkParameters.new v fs =
      if fs.isEmpty then Except.error Error.notSupportedLightClient
      else if epochsOrdered fs then Except.ok { genesis_version := v, forks := fs }
      else Except.error
        (Error.invalidForkParamersOrder { genesis_version := v, forks := fs }) := by
  unfold ForkParameters.new ForkParameters.validate
  by_cases h1 : fs.isEmpty <;> by_cases h2 : epochsOrdered fs <;> simp [h1, h2]

/-- In a chain of epoch-ordered forks, the head epoch bounds every member. -/
theorem chain_head_epoch_le : ∀ (l : List ForkParameter) (f0 : ForkParameter),
    List.Chain' (fun a b => a.epoch ≤ b.epoch) (f0 :: l) →
    ∀ f ∈ f0 :: l, f0.epoch ≤ f.epoch
  | [], _, _, f, hf => by
    rw [List.mem_singleton] at hf
    exact hf ▸ Nat.le_refl _
  | b :: l, f0, hc, f, hf => by
    rw [List.chain'_cons] at hc
    rcases List.mem_cons.mp hf with h | h
    · exact h ▸ Nat.le_refl _
    · exact Nat.le_trans hc.1 (chain_head_epoch_le l b hc.2 f h)

/-- A successful `validate` means a non-empty, epoch-ordered fork table. -/
theorem validate_ok_iff (fp : ForkParameters) :
    fp.validate = Except.ok () ↔ fp.forks ≠ [] ∧ epochsOrdered fp.forks = true := by
  by_cases h1 : fp.forks = []
  · simp [ForkParameters.validate, h1]
  · have hne : fp.forks.isEmpty = false := by
      cases hx : fp.forks with
      | nil => exact absurd hx h1
      | cons a l => rfl
    by_cases h2 : epochsOrdered fp.forks <;>
      simp [ForkParameters.validate, hne, h1, h2]

/-- Claim C1: for every epoch `e` and every validly constructed
`ForkParameters`, `compute_fork_version e` returns the version of the last
fork of the table whose epoch is at most `e`, and `compute_fork_spec e`
returns that fork spec; when no fork has epoch at most `e` they return
`genesis_version` and `GENESIS_SPEC` respectively (the `none` case of the
last-active lookup). -/
theorem compute_fork_version_is_last_active (fp : ForkParameters) (e : Epoch)
    (hv : fp.validate = Except.ok ()) :
    fp.compute_fork_version e
        = (lastActiveFork fp.forks e).elim fp.genesis_version ForkParameter.version
    ∧ fp.compute_fork_spec e
        = (lastActiveFork fp.forks e).elim GENESIS_SPEC ForkParameter.spec := by
  have h := compute_fork_map_snd fp e
  unfold ForkParameters.compute_fork_version ForkParameters.compute_fork_spec
  cases hc : fp.compute_fork e with
  | none =>
    rw [hc] at h
    rw [← h]
    exact ⟨rfl, rfl⟩
  | some x =>
    rw [hc] at h
    rw [← h]
    exact ⟨rfl, rfl⟩

/-- Claim C1 witness: at the concrete two-fork table, epoch 3 activates the
first fork and the theorem applies. -/
theorem compute_fork_version_is_last_active_witness :
    sampleParams.validate = Except.ok ()
    ∧ sampleParams.compute_fork_version 3
        = (lastActiveFork sampleParams.forks 3).elim sampleParams.genesis_version
            ForkParameter.version
    ∧ sampleParams.compute_fork_version 3 = [1, 0, 0, 1] :=
  ⟨rfl, (compute_fork_version_is_last_active sampleParams 3 rfl).1, by decide⟩

/-- Claim C2: `ForkParameters.new v fs` succeeds exactly when `fs` is
non-empty and adjacent epochs are non-decreasing; on success the stored
genesis version and fork table equal the inputs; an empty table yields
`notSupportedLightClient` and a non-monotonic one yields
`invalidForkParamersOrder`. -/
theorem forkParameters_new_spec (v : Version) (fs : List ForkParameter) :
    ((∃ fp, ForkParameters.new v fs = Except.ok fp) ↔ fs ≠ [] ∧ EpochsSorted fs)
    ∧ (∀ fp, ForkParameters.new v fs = Except.ok fp →
        fp.genesis_version = v ∧ fp.forks = fs)
    ∧ (fs = [] → ForkParameters.new v fs = Except.error Error.notSupportedLightClient)
    ∧ (fs ≠ [] → ¬ EpochsSorted fs →
        ForkParameters.new v fs
          = Except.error (Error.invalidForkParamersOrder
              { genesis_version := v, forks := fs })) := by
  have hcases := forkParameters_new_cases v fs
  by_cases h1 : fs = []
  · subst h1
    have hval : ForkParameters.new v []
        = Except.error Error.notSupportedLightClient := rfl
    refine ⟨?_, ?_, fun _ => hval, fun hne _ => absurd rfl hne⟩
    · constructor
      · rintro ⟨fp, hfp⟩
        rw [hval] at hfp
        exact Except.noConfusion hfp
      · rintro ⟨hne, _⟩
        exact absurd rfl hne
    · intro fp hfp
      rw [hval] at hfp
      exact Except.noConfusion hfp
  · have hne : fs.isEmpty = false := by
      cases hx : fs with
      | nil => exact absurd hx h1
      | cons a l => rfl
    rw [hne] at hcases
    by_cases h2 : epochsOrdered fs
    · rw [if_neg (by simp), if_pos h2] at hcases
      have hs : EpochsSorted fs := (epochsOrdered_iff_sorted fs).mp h2
      refine ⟨⟨fun _ => ⟨h1, hs⟩, fun _ => ⟨_, hcases⟩⟩, ?_, fun he => absurd he h1,
        fun _ hns => absurd hs hns⟩
      intro fp hfp
      rw [hcases] at hfp
      cases hfp
      exact ⟨rfl, rfl⟩
    · rw [if_neg (by simp), if_neg h2] at hcases
      have hns : ¬ EpochsSorted fs := fun hs =>
        h2 ((epochsOrdered_iff_sorted fs).mpr hs)
      refine ⟨?_, ?_, fun he => absurd he h1, fun _ _ => hcases⟩
      · constructor
        · rintro ⟨fp, hfp⟩
          rw [hcases] at hfp
          exact absurd hfp (by simp)
        · rintro ⟨_, hs⟩
          exact absurd hs hns
      · intro fp hfp
        rw [hcases] at hfp
        exact absurd hfp (by simp)

/-- Claim C2 witness: the empty fork table is rejected with
`notSupportedLightClient`. -/
theorem forkParameters_new_spec_witness :
    ForkParameters.new [0, 0, 0, 1] [] = Except.error Error.notSupportedLightClient :=
  (forkParameters_new_spec [0, 0, 0, 1] []).2.2.1 rfl

/-- Claim C5: `is_fork e idx` is true exactly when some fork is active at `e`
and the position of the last active fork in the ordered table is at least
`idx`; in particular, when no fork is active (every activation epoch exceeds
`e`) it is false for every `idx`. -/
theorem is_fork_iff_last_active_index (fp : ForkParameters) (e : Epoch) (idx : Nat) :
    (fp.is_fork e idx = true ↔
      ∃ i f, lastActiveForkEntry fp.forks e = some (i, f) ∧ idx ≤ i)
    ∧ ((∀ f ∈ fp.forks, e < f.epoch) → fp.is_fork e idx = false) := by
  have hc := compute_fork_eq_lastActiveForkEntry fp e
  constructor
  · unfold ForkParameters.is_fork
    rw [hc]
    cases hl : lastActiveForkEntry fp.forks e with
    | none =>
      simp
    | some x =>
      cases x with
      | mk i f =>
        simp only [decide_eq_true_eq, ge_iff_le]
        constructor
        · intro hle
          exact ⟨i, f, rfl, hle⟩
        · rintro ⟨j, g, hjg, hj⟩
          cases hjg
          exact hj
  · intro hall
    unfold ForkParameters.is_fork
    rw [compute_fork_eq_none_of_all_later fp e hall]

/-- Claim C5 witness: at the concrete two-fork table, epoch 5 activates the
second fork (index 1), so `is_fork 5 1` holds. -/
theorem is_fork_iff_last_active_index_witness :
    sampleParams.is_fork 5 1 = true :=
  (is_fork_iff_last_active_index sampleParams 5 1).1.mpr
    ⟨1, sampleForkB, by decide, by decide⟩

/-- Claim C7: a table with the single fork (version `[1,0,0,1]`, activation
epoch 0) is validly constructed, and `compute_fork_version 0` returns the
fork version rather than the genesis version: the fork is active immediately
at epoch 0. -/
theorem single_fork_active_at_epoch_zero :
    ∃ fp, ForkParameters.new [0, 0, 0, 1]
        [{ version := [1, 0, 0, 1], epoch := 0, spec := sampleSpec }] = Except.ok fp
      ∧ fp.compute_fork_version 0 = [1, 0, 0, 1]
      ∧ fp.genesis_version = [0, 0, 0, 1] := by
  refine ⟨_, rfl, by decide, rfl⟩

/-- Claim C9: for a validly constructed table and an epoch strictly below the
first activation epoch, `compute_fork_spec` returns `GENESIS_SPEC`, whose
`finalized_root_gindex` is 105 while all other generalized indices are 0. -/
theorem genesis_fallback_spec (fp : ForkParameters) (e : Epoch) (f0 : ForkParameter)
    (hv : fp.validate = Except.ok ()) (h0 : fp.forks.head? = some f0)
    (he : e < f0.epoch) :
    fp.compute_fork_spec e = GENESIS_SPEC
    ∧ GENESIS_SPEC.finalized_root_gindex = 105
    ∧ GENESIS_SPEC.current_sync_committee_gindex = 0
    ∧ GENESIS_SPEC.next_sync_committee_gindex = 0
    ∧ GENESIS_SPEC.execution_payload_gindex = 0
    ∧ GENESIS_SPEC.execution_payload_state_root_gindex = 0
    ∧ GENESIS_SPEC.execution_payload_block_number_gindex = 0 := by
  refine ⟨?_, rfl, rfl, rfl, rfl, rfl, rfl⟩
  have hall : ∀ f ∈ fp.forks, e < f.epoch := by
    have hord := ((validate_ok_iff fp).mp hv).2
    have hchain := (epochsOrdered_iff_chain fp.forks).mp hord
    cases hx : fp.forks with
    | nil =>
      intro f hf
      exact absurd hf (by simp)
    | cons a l =>
      rw [hx] at h0 hchain
      have ha : a = f0 := by
        simpa using h0
      subst ha
      intro f hf
      exact Nat.lt_of_lt_of_le he (chain_head_epoch_le l a hchain f (hx ▸ hf))
  unfold ForkParameters.compute_fork_spec
  rw [compute_fork_eq_none_of_all_later fp e hall]
  rfl

/-- Claim C9 witness: at the concrete two-fork table (first activation at
epoch 2), epoch 1 falls back to `GENESIS_SPEC`. -/
theorem genesis_fallback_spec_witness :
    sampleParams.compute_fork_spec 1 = GENESIS_SPEC :=
  (genesis_fallback_spec sampleParams 1 sampleForkA rfl rfl (by decide)).1

/-- Claim C6: `Fraction.new n d` succeeds exactly when `d` is positive and
`n ≤ d`; on success the stored numerator and denominator round-trip to the
inputs; when `d = 0` or `n > d` it fails with the invalid-fraction error
carrying the offending pair. -/
theorem fraction_new_spec (n d : Nat) :
    ((∃ f, Fraction.new n d = Except.ok f) ↔ 0 < d ∧ n ≤ d)
    ∧ (∀ f, Fraction.new n d = Except.ok f → f.numerator = n ∧ f.denominator = d)
    ∧ (d = 0 ∨ d < n →
        Fraction.new n d
          = Except.error (VerifierError.invalidFraction
              { numerator := n, denominator := d })) := by
  unfold Fraction.new
  by_cases h : d = 0 ∨ n > d
  · rw [if_pos h]
    refine ⟨?_, ?_, fun _ => rfl⟩
    · constructor
      · rintro ⟨f, hf⟩
        exact Except.noConfusion hf
      · rintro ⟨hd, hnd⟩
        rcases h with h | h
        · omega
        · omega
    · intro f hf
      exact Except.noConfusion hf
  · rw [if_neg h]
    push_neg at h
    refine ⟨⟨fun _ => ⟨Nat.pos_of_ne_zero h.1, h.2⟩, fun _ => ⟨_, rfl⟩⟩, ?_,
      fun hc => ?_⟩
    · intro f hf
      cases hf
      exact ⟨rfl, rfl⟩
    · rcases hc with hc | hc
      · exact absurd hc h.1
      · exact absurd hc (Nat.not_lt.mpr h.2)

/-- Claim C6 witness: the typical threshold 2/3 is accepted and round-trips. -/
theorem fraction_new_spec_witness :
    (∃ f, Fraction.new 2 3 = Except.ok f)
    ∧ Fraction.new 2 3 = Except.ok { numerator := 2, denominator := 3 } :=
  ⟨(fraction_new_spec 2 3).1.mpr (by decide), rfl⟩

/-- Claim C3: the wire-to-consensus conversion yields
`next_sync_committee = none` exactly when the wire committee equals the
all-default (all-zero-pubkeys) value for committee size `N`; otherwise it
yields `some` pairing the wire committee with the wire branch, and any
committee present in a converted update is paired with exactly the wire
branch. -/
theorem update_conversion_committee_sentinel (N : Nat) (d : LightClientUpdateData) :
    ((d.toLightClientUpdate N).next_sync_committee = none
        ↔ d.next_sync_committee = SyncCommittee.defaultFor N)
    ∧ (d.next_sync_committee ≠ SyncCommittee.defaultFor N →
        (d.toLightClientUpdate N).next_sync_committee
          = some (d.next_sync_committee, d.next_sync_committee_branch))
    ∧ (∀ c b, (d.toLightClientUpdate N).next_sync_committee = some (c, b) →
        c = d.next_sync_committee ∧ b = d.next_sync_committee_branch) := by
  have hproj : (d.toLightClientUpdate N).next_sync_committee
      = if d.next_sync_committee = SyncCommittee.defaultFor N then none
        else some (d.next_sync_committee, d.next_sync_committee_branch) := rfl
  rw [hproj]
  by_cases h : d.next_sync_committee = SyncCommittee.defaultFor N
  · rw [if_pos h]
    exact ⟨⟨fun _ => h, fun _ => rfl⟩, fun hc => absurd h hc,
      fun c b hcb => Option.noConfusion hcb⟩
  · rw [if_neg h]
    refine ⟨⟨fun hc => Option.noConfusion hc, fun hc => absurd hc h⟩,
      fun _ => rfl, ?_⟩
    intro c b hcb
    cases hcb
    exact ⟨rfl, rfl⟩

/-- Claim C3 witness: a wire update with a non-default committee converts to
`some` of the committee and its branch. -/
theorem update_conversion_committee_sentinel_witness :
    (c3data.toLightClientUpdate 1).next_sync_committee
      = some (c3data.next_sync_committee, c3data.next_sync_committee_branch) :=
  (update_conversion_committee_sentinel 1 c3data).2.1 (by decide)

/-- Claim C4 counterexample: the conversion of the concrete wire update
`c4data` produces a `LightClientUpdate` whose finalized header is the empty
(all-default) header while its finality branch is not a zero branch, so the
claimed optionality invariant of the finality pair fails on this update. -/
theorem finality_pair_optionality_counterexample :
    ¬ ((c4data.toLightClientUpdate 1).finalized_header = emptyLightClientHeader →
        isZeroBranch (c4data.toLightClientUpdate 1).finality_branch = true) := by
  decide

/-- Claim C4 amended: the conversion does not enforce any optionality rule on
the finality pair; `finalized_header` and `finality_branch` are plain fields
carried over unchanged from the wire data, so an empty finalized header can
be paired with a non-zero finality branch (the zero-branch requirement for an
absent finalized header is a validation-time rule, not an invariant of every
`LightClientUpdate`). -/
theorem finality_fields_pass_through (N : Nat) (d : LightClientUpdateData) :
    (d.toLightClientUpdate N).finalized_header = d.finalized_header
    ∧ (d.toLightClientUpdate N).finality_branch = d.finality_branch :=
  ⟨rfl, rfl⟩

/-- Claim C8: converting a `LightClientFinalityUpdateData` yields exactly the
update with no next sync committee and every other field carried over
unchanged. -/
theorem finality_update_conversion (d : LightClientFinalityUpdateData) :
    d.toLightClientUpdate
      = { attested_header := d.attested_header
          next_sync_committee := none
          finalized_header := d.finalized_header
          finality_branch := d.finality_branch
          sync_aggregate := d.sync_aggregate
          signature_slot := d.signature_slot } :=
  rfl

/-- Claim C10: two wire updates that both carry the all-default committee
sentinel and agree on every field except the committee branch convert to the
same `LightClientUpdate`: the branch accompanying an absent committee is
discarded by the conversion. -/
theorem sentinel_branch_noninterference (N : Nat) (d1 d2 : LightClientUpdateData)
    (h1 : d1.next_sync_committee = SyncCommittee.defaultFor N)
    (h2 : d2.next_sync_committee = SyncCommittee.defaultFor N)
    (ha : d1.attested_header = d2.attested_header)
    (hf : d1.finalized_header = d2.finalized_header)
    (hb : d1.finality_branch = d2.finality_branch)
    (hs : d1.sync_aggregate = d2.sync_aggregate)
    (ht : d1.signature_slot = d2.signature_slot) :
    d1.toLightClientUpdate N = d2.toLightClientUpdate N := by
  unfold LightClientUpdateData.toLightClientUpdate
  simp only [if_pos h1, if_pos h2]
  rw [ha, hf, hb, hs, ht]

/-- Claim C10 witness: the concrete sentinel-carrying wire updates `c10a` and
`c10b` differ only in the committee branch and convert identically. -/
theorem sentinel_branch_noninterference_witness :
    c10a.toLightClientUpdate 1 = c10b.toLightClientUpdate 1
    ∧ c10a.next_sync_committee_branch ≠ c10b.next_sync_committee_branch :=
  ⟨sentinel_branch_noninterference 1 c10a c10b rfl rfl rfl rfl rfl rfl rfl,
    by decide⟩
